import Mathlib

/-!
Verification of the phys325-orbital-system integration core.

The Python sources are shallowly embedded:
* `lib/Solver.py` (Euler, RK2, RK4) over exact rationals, with numpy
  elementwise arithmetic modelled by `List.zipWith`/`List.map` and the
  failable indexing `f[6]` modelled by `List.getElem?`;
* the substep loop `Physics.advance` of `lib/Physics.py` as a fuel-indexed
  recursion over an abstract solver;
* `CentralGravity.diff_eq`, `lib/Model.py` (`OrbitModel`) and
  `lib/Vector.py` over the reals, since they involve `sqrt`/`arctan`;
* `library/Body.py` (`GravBodies`) with the name→row dictionary as an
  association list.
-/

namespace Orbital

/-! ## numpy elementwise arithmetic on rational state vectors -/

/-- numpy elementwise addition of two state arrays. -/
def vecAdd (a b : List ℚ) : List ℚ := List.zipWith (· + ·) a b

/-- numpy `array * scalar` (scalar on the right, as in `k1*dx`). -/
def vmul (a : List ℚ) (c : ℚ) : List ℚ := a.map (· * c)

/-- numpy `scalar * array` (scalar on the left, as in `0.5*k1`). -/
def smul (c : ℚ) (a : List ℚ) : List ℚ := a.map (c * ·)

/-! ## Solver.py

Each solver's `advance(self, x, f, dx)` queries the bound physics object's
differential equation; we pass that function explicitly as `d`.  The result
is wrapped in `Option`: `none` models a Python `IndexError`, and the only
failable operation any of the three bodies performs is the read `f[6]` in
`RK4.advance`. -/

/-- `Euler.advance`: `fnext = f + diff_eq(x,f)*dx`. -/
def Euler.advance (d : ℚ → List ℚ → List ℚ) (x : ℚ) (f : List ℚ) (dx : ℚ) :
    Option (ℚ × List ℚ) :=
  some (x + dx, vecAdd f (vmul (d x f) dx))

/-- `RK2.advance`: midpoint rule, `fnext = f + k2*dx`. -/
def RK2.advance (d : ℚ → List ℚ → List ℚ) (x : ℚ) (f : List ℚ) (dx : ℚ) :
    Option (ℚ × List ℚ) :=
  let k1 := d x f
  let k2 := d (x + (1/2)*dx) (vecAdd f (vmul (smul (1/2) k1) dx))
  some (x + dx, vecAdd f (vmul k2 dx))

/-- The k1..k4 stage computation of `RK4.advance` applied to the truncated
state `f[:6]`: `fnext = f + (1/6)*(k1+2*k2+2*k3+k4)*dx`. -/
def rk4core (d : ℚ → List ℚ → List ℚ) (x : ℚ) (f6 : List ℚ) (dx : ℚ) : List ℚ :=
  let k1 := d x f6
  let k2 := d (x + (1/2)*dx) (vecAdd f6 (vmul (smul (1/2) k1) dx))
  let k3 := d (x + (1/2)*dx) (vecAdd f6 (vmul (smul (1/2) k2) dx))
  let k4 := d (x + dx) (vecAdd f6 (vmul k3 dx))
  vecAdd f6 (vmul (smul (1/6) (vecAdd (vecAdd (vecAdd k1 (smul 2 k2)) (smul 2 k3)) k4)) dx)

/-- `RK4.advance`: strips the trailing mass `f[6]` (a failable indexing --
`none` models Python's `IndexError`), runs classical RK4 on the 6-component
prefix `f[:6]`, and appends the mass back unchanged. -/
def RK4.advance (d : ℚ → List ℚ → List ℚ) (x : ℚ) (f : List ℚ) (dx : ℚ) :
    Option (ℚ × List ℚ) :=
  match f[6]? with
  | none => none
  | some mass => some (x + dx, rk4core d x (f.take 6) dx ++ [mass])

theorem vecAdd_length (a b : List ℚ) : (vecAdd a b).length = min a.length b.length :=
  List.length_zipWith ..

theorem vmul_length (a : List ℚ) (c : ℚ) : (vmul a c).length = a.length :=
  List.length_map ..

theorem smul_length (c : ℚ) (a : List ℚ) : (smul c a).length = a.length :=
  List.length_map ..

theorem vecAdd_length_le (a b : List ℚ) (n : ℕ) (h : a.length ≤ n) :
    (vecAdd a b).length ≤ n := by
  rw [vecAdd_length]
  exact le_trans (min_le_left _ _) h

theorem take6_length_le (f : List ℚ) : (f.take 6).length ≤ 6 := by
  rw [List.length_take]
  exact min_le_left _ _

/-- The RK4 stage block maps a 6-component state to a 6-component state
whenever the derivative function does so. -/
theorem rk4core_length (d : ℚ → List ℚ → List ℚ) (x dx : ℚ) (f6 : List ℚ)
    (h : f6.length = 6) (hd : ∀ u s, s.length = 6 → (d u s).length = 6) :
    (rk4core d x f6 dx).length = 6 := by
  rw [rk4core]
  have hk1 : (d x f6).length = 6 := hd _ _ h
  have hk2 : (d (x + (1/2)*dx) (vecAdd f6 (vmul (smul (1/2) (d x f6)) dx))).length = 6 := by
    apply hd
    rw [vecAdd_length, vmul_length, smul_length, hk1, h]
    omega
  have hk3 : (d (x + (1/2)*dx) (vecAdd f6 (vmul (smul (1/2)
      (d (x + (1/2)*dx) (vecAdd f6 (vmul (smul (1/2) (d x f6)) dx)))) dx))).length = 6 := by
    apply hd
    rw [vecAdd_length, vmul_length, smul_length, hk2, h]
    omega
  have hk4 : (d (x + dx) (vecAdd f6 (vmul (d (x + (1/2)*dx) (vecAdd f6 (vmul (smul (1/2)
      (d (x + (1/2)*dx) (vecAdd f6 (vmul (smul (1/2) (d x f6)) dx)))) dx))) dx))).length = 6 := by
    apply hd
    rw [vecAdd_length, vmul_length, hk3, h]
    omega
  rw [vecAdd_length, vmul_length, smul_length, vecAdd_length, vecAdd_length,
    vecAdd_length, smul_length, smul_length, hk1, hk2, hk3, hk4, h]
  omega

/-- The RK4 stage block only queries the derivative function at states of
length at most 6. -/
theorem rk4core_congr (d₁ d₂ : ℚ → List ℚ → List ℚ) (x dx : ℚ) (f6 : List ℚ)
    (h : f6.length ≤ 6) (hagree : ∀ u s, s.length ≤ 6 → d₁ u s = d₂ u s) :
    rk4core d₁ x f6 dx = rk4core d₂ x f6 dx := by
  rw [rk4core, rk4core]
  have e1 : d₁ x f6 = d₂ x f6 := hagree _ _ h
  rw [e1]
  have e2 := hagree (x + (1/2)*dx)
    (vecAdd f6 (vmul (smul (1/2) (d₂ x f6)) dx)) (vecAdd_length_le _ _ _ h)
  rw [e2]
  have e3 := hagree (x + (1/2)*dx)
    (vecAdd f6 (vmul (smul (1/2) (d₂ (x + (1/2)*dx)
      (vecAdd f6 (vmul (smul (1/2) (d₂ x f6)) dx)))) dx)) (vecAdd_length_le _ _ _ h)
  rw [e3]
  have e4 := hagree (x + dx)
    (vecAdd f6 (vmul (d₂ (x + (1/2)*dx)
      (vecAdd f6 (vmul (smul (1/2) (d₂ (x + (1/2)*dx)
        (vecAdd f6 (vmul (smul (1/2) (d₂ x f6)) dx)))) dx))) dx))
    (vecAdd_length_le _ _ _ h)
  rw [e4]

/-- C3: for a 7-component state, `RK4.advance` returns the mass component
`f[6]` unchanged at index 6 of the output, the dynamical part of the output
depends only on the first six components of the input, and the result is
insensitive to the derivative function's behaviour outside the length-≤-6
states it is actually called on. -/
theorem rk4_mass_passthrough (d d₁ d₂ : ℚ → List ℚ → List ℚ) (x dx : ℚ)
    (f g : List ℚ) (hf : f.length = 7)
    (hd : ∀ u s, s.length = 6 → (d u s).length = 6)
    (hg : g.length = 7) (hfg : g.take 6 = f.take 6)
    (hagree : ∀ u s, s.length ≤ 6 → d₁ u s = d₂ u s) :
    (∃ out, RK4.advance d x f dx = some (x + dx, out) ∧ out[6]? = f[6]?) ∧
    (RK4.advance d x f dx).map (fun p => p.2.take 6)
      = (RK4.advance d x g dx).map (fun p => p.2.take 6) ∧
    RK4.advance d₁ x f dx = RK4.advance d₂ x f dx := by
  have h6f : (6:ℕ) < f.length := by omega
  have h6g : (6:ℕ) < g.length := by omega
  have hf6 : (f.take 6).length = 6 := by
    rw [List.length_take]; omega
  refine ⟨?_, ?_, ?_⟩
  · -- mass pass-through
    rw [RK4.advance, List.getElem?_eq_getElem h6f]
    refine ⟨_, rfl, ?_⟩
    rw [List.getElem?_append_right (by rw [rk4core_length d x dx _ hf6 hd]),
      rk4core_length d x dx _ hf6 hd]
    rfl
  · -- the dynamical output depends only on the first six input components
    rw [RK4.advance, RK4.advance, List.getElem?_eq_getElem h6f,
      List.getElem?_eq_getElem h6g, hfg]
    have htake : ∀ (l : List ℚ) (m : ℚ), l.length = 6 → ((l ++ [m]).take 6) = l := by
      intro l m hl
      rw [List.take_append_of_le_length (by omega), List.take_of_length_le (by omega)]
    simp only [Option.map]
    rw [htake _ _ (rk4core_length d x dx _ hf6 hd),
      htake _ _ (rk4core_length d x dx _ hf6 hd)]
  · -- only (lists built from) the first six components reach the derivative
    rw [RK4.advance, RK4.advance]
    cases hm : f[6]? with
    | none => rfl
    | some mass =>
      rw [rk4core_congr d₁ d₂ x dx _ (take6_length_le f) hagree]

/-- Witness for `rk4_mass_passthrough` at the identity derivative and the
concrete states `[0,0,0,0,0,0,5]` and `[0,0,0,0,0,0,9]`. -/
theorem rk4_mass_passthrough_witness :
    (([0,0,0,0,0,0,5] : List ℚ).length = 7 ∧
     ([0,0,0,0,0,0,9] : List ℚ).length = 7) ∧
    (∃ out, RK4.advance (fun _ s => s) 0 [0,0,0,0,0,0,5] 1 = some (0 + 1, out) ∧
      out[6]? = ([0,0,0,0,0,0,5] : List ℚ)[6]?) ∧
    (RK4.advance (fun _ s => s) 0 [0,0,0,0,0,0,5] 1).map (fun p => p.2.take 6)
      = (RK4.advance (fun _ s => s) 0 [0,0,0,0,0,0,9] 1).map (fun p => p.2.take 6) ∧
    RK4.advance (fun _ s => s) 0 [0,0,0,0,0,0,5] 1
      = RK4.advance (fun _ s => s) 0 [0,0,0,0,0,0,5] 1 :=
  ⟨⟨by decide, by decide⟩,
    rk4_mass_passthrough (fun _ s => s) (fun _ s => s) (fun _ s => s) 0 1
      [0,0,0,0,0,0,5] [0,0,0,0,0,0,9] (by decide)
      (fun _ s h => by rw [h]) (by decide) (by decide)
      (fun _ _ _ => rfl)⟩

/-- C10: `RK4.advance` unconditionally reads index 6 of the state, so it
fails (the `IndexError` branch, modelled as `none`) on every state shorter
than 7 components and succeeds on every state of length at least 7, while
`Euler.advance` and `RK2.advance` succeed on states of any length. -/
theorem rk4_length_requirement (d : ℚ → List ℚ → List ℚ) (x dx : ℚ) (f : List ℚ) :
    (f.length < 7 → RK4.advance d x f dx = none) ∧
    (7 ≤ f.length → (RK4.advance d x f dx).isSome) ∧
    (Euler.advance d x f dx).isSome ∧ (RK2.advance d x f dx).isSome := by
  refine ⟨fun h => ?_, fun h => ?_, rfl, rfl⟩
  · rw [RK4.advance, List.getElem?_eq_none (by omega)]
  · rw [RK4.advance, List.getElem?_eq_getElem (by omega)]
    rfl

/-! ## Physics.advance (`lib/Physics.py`, lines 52-59)

The substep loop `while np.abs(dt) > 0: step := dt_max*sign(dt) if
np.abs(dt) > dt_max else dt; t, state := solver.advance(t, state, step);
dt := dt - step`.  The bound solver is passed as an abstract function
`adv : time → state → step → time × state`; the Python `while` is modelled
as fuel-indexed recursion, `none` marking fuel exhaustion with the loop
condition still true. -/

/-- `np.sign` on rationals. -/
def qsign (q : ℚ) : ℚ := if 0 < q then 1 else if q < 0 then -1 else 0

/-- The loop body of `Physics.advance`, with explicit fuel. -/
def Physics.advanceLoop {σ : Type} (adv : ℚ → σ → ℚ → ℚ × σ) (dt_max : ℚ) :
    ℕ → ℚ → σ → ℚ → Option (ℚ × σ)
  | 0, t, s, dt => if 0 < |dt| then none else some (t, s)
  | n + 1, t, s, dt =>
    if 0 < |dt| then
      let step := if dt_max < |dt| then dt_max * qsign dt else dt
      let r := adv t s step
      Physics.advanceLoop adv dt_max n r.1 r.2 (dt - step)
    else some (t, s)

/-- C2: for positive `dt_max` and a solver that advances time by exactly the
given step (as every solver in `Solver.py` does), the substep loop of
`Physics.advance` terminates within `⌈|Δt|/dt_max⌉` iterations, the
remaining duration reaching exactly zero, and returns the start time plus
the requested duration (the sum of all substeps); moreover each substep
taken is `sign(remaining)·min(|remaining|, dt_max)`. -/
theorem physics_advance_terminates {σ : Type} (adv : ℚ → σ → ℚ → ℚ × σ)
    (dt_max : ℚ) (hmax : 0 < dt_max)
    (hadv : ∀ t s h, (adv t s h).1 = t + h) (t : ℚ) (s : σ) (dt : ℚ) :
    (∃ s', Physics.advanceLoop adv dt_max ⌈|dt| / dt_max⌉₊ t s dt
        = some (t + dt, s')) ∧
    (∀ r : ℚ, r ≠ 0 →
      (if dt_max < |r| then dt_max * qsign r else r) = qsign r * min |r| dt_max) := by
  constructor
  · -- termination and time additivity, by induction on the fuel
    suffices H : ∀ (n : ℕ) (t : ℚ) (s : σ) (dt : ℚ), ⌈|dt| / dt_max⌉₊ ≤ n →
        ∃ s', Physics.advanceLoop adv dt_max n t s dt = some (t + dt, s') by
      exact H _ t s dt le_rfl
    intro n
    induction n with
    | zero =>
      intro t s dt hn
      have h0 : |dt| / dt_max ≤ 0 := by
        have := Nat.ceil_le.mp hn
        simpa using this
      have hdt : dt = 0 := by
        have h1 : |dt| ≤ 0 := by
          by_contra h2
          push_neg at h2
          exact absurd (div_pos h2 hmax) (not_lt.mpr h0)
        have := abs_nonneg dt
        have : |dt| = 0 := le_antisymm h1 this
        exact abs_eq_zero.mp this
      subst hdt
      refine ⟨s, ?_⟩
      rw [Physics.advanceLoop]
      simp
    | succ n ih =>
      intro t s dt hn
      by_cases hdt : dt = 0
      · subst hdt
        refine ⟨s, ?_⟩
        rw [Physics.advanceLoop]
        simp
      · have habs : 0 < |dt| := abs_pos.mpr hdt
        rw [Physics.advanceLoop]
        simp only [if_pos habs]
        by_cases hbig : dt_max < |dt|
        · -- full substep of size dt_max in the direction of dt
          simp only [if_pos hbig]
          have hstep_abs : |dt - dt_max * qsign dt| = |dt| - dt_max := by
            rcases lt_trichotomy 0 dt with hpos | hzero | hneg
            · have hb : dt_max < dt := by rwa [abs_of_pos hpos] at hbig
              rw [qsign, if_pos hpos, mul_one, abs_of_pos hpos,
                abs_of_pos (show (0:ℚ) < dt - dt_max by linarith)]
            · exact absurd hzero.symm hdt
            · have hb : dt_max < -dt := by rwa [abs_of_neg hneg] at hbig
              rw [qsign, if_neg (by linarith), if_pos hneg, abs_of_neg hneg,
                abs_of_neg (show dt - dt_max * (-1) < 0 by linarith)]
              ring
          have hceil : ⌈|dt - dt_max * qsign dt| / dt_max⌉₊ ≤ n := by
            rw [hstep_abs]
            have h1 : |dt| / dt_max ≤ (n : ℚ) + 1 := by
              have := Nat.ceil_le.mp hn
              push_cast at this
              exact this
            apply Nat.ceil_le.mpr
            rw [sub_div, div_self (ne_of_gt hmax)]
            linarith
          obtain ⟨s', hs'⟩ := ih (adv t s (dt_max * qsign dt)).1
            (adv t s (dt_max * qsign dt)).2 (dt - dt_max * qsign dt) hceil
          refine ⟨s', ?_⟩
          have harith : t + dt_max * qsign dt + (dt - dt_max * qsign dt) = t + dt := by
            ring
          rw [hs', hadv, harith]
        · -- final partial substep: step = dt, remaining becomes exactly zero
          simp only [if_neg hbig]
          have hceil0 : ⌈|dt - dt| / dt_max⌉₊ ≤ n := by
            simp
          obtain ⟨s', hs'⟩ := ih (adv t s dt).1 (adv t s dt).2 (dt - dt) hceil0
          refine ⟨s', ?_⟩
          have harith : t + dt + (dt - dt) = t + dt := by ring
          rw [hs', hadv, harith]
  · -- the chosen substep is sign(remaining)·min(|remaining|, dt_max)
    intro r hr
    by_cases hbig : dt_max < |r|
    · rw [if_pos hbig, min_eq_right (le_of_lt hbig)]
      ring
    · rw [if_neg hbig, min_eq_left (not_lt.mp hbig)]
      rcases lt_trichotomy 0 r with h | h | h
      · rw [qsign, if_pos h, abs_of_pos h]
        ring
      · exact absurd h.symm hr
      · rw [qsign, if_neg (by linarith), if_pos h, abs_of_neg h]
        ring

/-- Witness for `physics_advance_terminates`: `Δt = 5/2`, `dt_max = 1`,
with the trivial solver that just adds the step to the time. -/
theorem physics_advance_terminates_witness :
    (∃ s' : ℚ, Physics.advanceLoop (fun t s h => (t + h, s)) 1
        ⌈|(5/2 : ℚ)| / 1⌉₊ 0 (0 : ℚ) (5/2) = some (0 + 5/2, s')) ∧
    (∀ r : ℚ, r ≠ 0 →
      (if (1:ℚ) < |r| then 1 * qsign r else r) = qsign r * min |r| 1) :=
  physics_advance_terminates (fun t s h => (t + h, s)) 1 (by norm_num)
    (fun _ _ _ => rfl) 0 0 (5/2)

/-- Witness for `rk4_length_requirement`: the 2-component uniform-gravity
state `[0, 3]` makes RK4 fail while Euler and RK2 succeed. -/
theorem rk4_length_requirement_witness :
    ([0, 3] : List ℚ).length < 7 ∧
    RK4.advance (fun _ s => s) 0 [0, 3] 1 = none ∧
    (Euler.advance (fun _ s => s) 0 [0, 3] 1).isSome ∧
    (RK2.advance (fun _ s => s) 0 [0, 3] 1).isSome :=
  ⟨by decide,
    (rk4_length_requirement (fun _ s => s) 0 1 [0, 3]).1 (by decide),
    (rk4_length_requirement (fun _ s => s) 0 1 [0, 3]).2.2.1,
    (rk4_length_requirement (fun _ s => s) 0 1 [0, 3]).2.2.2⟩

/-! ## Cooling (`lib/Physics.py`, lines 100-114)

`Cooling.__init__` executes `self.dt_max = super.dt_max` before calling
`super().__init__(solver)`.  The name `super` there is Python's builtin
`super` *type* (it is not called), and the builtin type carries no
`dt_max` attribute, so the attribute read raises `AttributeError` and the
constructor never completes. -/

/-- The attribute read `super.dt_max` performed by `Cooling.__init__`:
Python's builtin `super` type object has no attribute `dt_max`, so the
lookup produces nothing. -/
def superTypeDtMax : Option ℚ := none

/-- The `Cooling` parameter record that `Cooling.__init__` tries to build. -/
structure Cooling where
  Ta : ℚ
  k : ℚ
  dt_max : ℚ

/-- `Cooling.__init__(solver, Ta, k)`: stores `Ta` and `k`, then evaluates
`self.dt_max = super.dt_max`, whose right-hand side fails; the failure is
surfaced as `Except.error`. -/
def Cooling.init (Ta k : ℚ) : Except String Cooling :=
  match superTypeDtMax with
  | none => Except.error "AttributeError: type object has no attribute dt_max"
  | some d => Except.ok { Ta := Ta, k := k, dt_max := d }

/-- The differential equation `Cooling.diff_eq(self, t, T) = k*(Ta - T)`
(lines 110-114), which is unreachable because construction fails. -/
def Cooling.diff_eq (Ta k : ℚ) (t T : ℚ) : ℚ := k * (Ta - T)

/-- C6 (code bug): constructing the `Cooling` physics variant never
succeeds — `self.dt_max = super.dt_max` reads a nonexistent attribute of
the builtin `super` type, raising `AttributeError` for every choice of
`Ta` and `k` — even though the `diff_eq` method itself does compute
`k*(Ta - T)` as the spec states. -/
theorem cooling_init_fails (Ta k : ℚ) :
    Cooling.init Ta k
      = Except.error "AttributeError: type object has no attribute dt_max" ∧
    ∀ t T : ℚ, Cooling.diff_eq Ta k t T = k * (Ta - T) :=
  ⟨rfl, fun _ _ => rfl⟩

/-! ## CentralGravity.diff_eq (`lib/Physics.py`, lines 144-162)

Real-valued: `rad = (f[0]**2+f[1]**2+f[2]**2)**(3/2)` (a real power), the
six-component derivative `[f3, f4, f5, -(G*M*f0)/rad, -(G*M*f1)/rad,
-(G*M*f2)/rad]`. -/

/-- `CentralGravity.diff_eq(self, t, f)` with the constructor-fixed
parameters `G` and `M` made explicit. -/
noncomputable def CentralGravity.diff_eq (G M : ℝ) (t : ℝ) (f : Fin 6 → ℝ) :
    Fin 6 → ℝ :=
  let rad := (f 0 ^ 2 + f 1 ^ 2 + f 2 ^ 2) ^ ((3:ℝ)/2)
  let k := G * M
  ![f 3, f 4, f 5, -(k * f 0) / rad, -(k * f 1) / rad, -(k * f 2) / rad]

/-- C1: for any state whose position part is not all zero, the central
gravity derivative is `[vx, vy, vz, -GM·x/r³, -GM·y/r³, -GM·z/r³]` with
`r = sqrt(x²+y²+z²)`. -/
theorem centralGravity_diff_eq_spec (G M t : ℝ) (f : Fin 6 → ℝ)
    (h : ¬(f 0 = 0 ∧ f 1 = 0 ∧ f 2 = 0)) :
    CentralGravity.diff_eq G M t f =
      ![f 3, f 4, f 5,
        -(G * M * f 0) / Real.sqrt (f 0 ^ 2 + f 1 ^ 2 + f 2 ^ 2) ^ 3,
        -(G * M * f 1) / Real.sqrt (f 0 ^ 2 + f 1 ^ 2 + f 2 ^ 2) ^ 3,
        -(G * M * f 2) / Real.sqrt (f 0 ^ 2 + f 1 ^ 2 + f 2 ^ 2) ^ 3] := by
  have hs : (0:ℝ) ≤ f 0 ^ 2 + f 1 ^ 2 + f 2 ^ 2 := by positivity
  have hrad : (f 0 ^ 2 + f 1 ^ 2 + f 2 ^ 2) ^ ((3:ℝ)/2)
      = Real.sqrt (f 0 ^ 2 + f 1 ^ 2 + f 2 ^ 2) ^ 3 := by
    rw [show ((3:ℝ)/2) = (1/2) * 3 by norm_num, Real.rpow_mul hs,
      ← Real.sqrt_eq_rpow]
    rw [show ((3:ℝ)) = ((3:ℕ):ℝ) by norm_num, Real.rpow_natCast]
  rw [CentralGravity.diff_eq]
  simp only [hrad]

/-- Witness for `centralGravity_diff_eq_spec` at `G = M = 1`, `t = 0` and
the state `(1,0,0, 2,3,4)`. -/
theorem centralGravity_diff_eq_spec_witness :
    (¬((1:ℝ) = 0 ∧ (0:ℝ) = 0 ∧ (0:ℝ) = 0)) ∧
    CentralGravity.diff_eq 1 1 0 ![1, 0, 0, 2, 3, 4] =
      ![(![1, 0, 0, 2, 3, 4] : Fin 6 → ℝ) 3,
        (![1, 0, 0, 2, 3, 4] : Fin 6 → ℝ) 4,
        (![1, 0, 0, 2, 3, 4] : Fin 6 → ℝ) 5,
        -(1 * 1 * (![1, 0, 0, 2, 3, 4] : Fin 6 → ℝ) 0) /
          Real.sqrt ((![1, 0, 0, 2, 3, 4] : Fin 6 → ℝ) 0 ^ 2 +
            (![1, 0, 0, 2, 3, 4] : Fin 6 → ℝ) 1 ^ 2 +
            (![1, 0, 0, 2, 3, 4] : Fin 6 → ℝ) 2 ^ 2) ^ 3,
        -(1 * 1 * (![1, 0, 0, 2, 3, 4] : Fin 6 → ℝ) 1) /
          Real.sqrt ((![1, 0, 0, 2, 3, 4] : Fin 6 → ℝ) 0 ^ 2 +
            (![1, 0, 0, 2, 3, 4] : Fin 6 → ℝ) 1 ^ 2 +
            (![1, 0, 0, 2, 3, 4] : Fin 6 → ℝ) 2 ^ 2) ^ 3,
        -(1 * 1 * (![1, 0, 0, 2, 3, 4] : Fin 6 → ℝ) 2) /
          Real.sqrt ((![1, 0, 0, 2, 3, 4] : Fin 6 → ℝ) 0 ^ 2 +
            (![1, 0, 0, 2, 3, 4] : Fin 6 → ℝ) 1 ^ 2 +
            (![1, 0, 0, 2, 3, 4] : Fin 6 → ℝ) 2 ^ 2) ^ 3] :=
  ⟨by norm_num,
    centralGravity_diff_eq_spec 1 1 0 ![1, 0, 0, 2, 3, 4]
      (by norm_num)⟩

/-! ## Vector.py

2D vector with magnitude/angle views; `numpy.rad2deg`/`numpy.deg2rad` are
the usual radian/degree conversions, `numpy.arctan` is `Real.arctan`. -/

structure Vector where
  x : ℝ
  y : ℝ

/-- The `r` property getter: `numpy.sqrt(numpy.square(x)+numpy.square(y))`. -/
noncomputable def Vector.r (v : Vector) : ℝ := Real.sqrt (v.x ^ 2 + v.y ^ 2)

/-- The `r` property setter: `ratio = self.r/val; self.x = self.x/ratio;
self.y = self.y/ratio` (the saved `ratio` is used for both components). -/
noncomputable def Vector.set_r (v : Vector) (val : ℝ) : Vector :=
  let sc := v.r / val
  { x := v.x / sc, y := v.y / sc }

noncomputable def rad2deg (t : ℝ) : ℝ := t * 180 / Real.pi

noncomputable def deg2rad (d : ℝ) : ℝ := d * Real.pi / 180

/-- The `theta` property getter: `numpy.rad2deg(numpy.arctan(y/x))`. -/
noncomputable def Vector.theta (v : Vector) : ℝ := rad2deg (Real.arctan (v.y / v.x))

/-- The `theta` property setter: saves `currentR = self.r`, then
`x = currentR*cos(deg2rad(val))`, `y = currentR*sin(deg2rad(val))`. -/
noncomputable def Vector.set_theta (v : Vector) (val : ℝ) : Vector :=
  let currentR := v.r
  { x := currentR * Real.cos (deg2rad val), y := currentR * Real.sin (deg2rad val) }

theorem deg2rad_rad2deg (t : ℝ) : deg2rad (rad2deg t) = t := by
  rw [deg2rad, rad2deg]
  field_simp

/-- C7 counterexample: the vector `(-1, 1)` has both components nonzero,
yet the no-op angle set `v.theta = v.theta` changes `x` from `-1` to `1`
(exactly, in exact arithmetic): `arctan(y/x)` loses the quadrant. -/
theorem vector_theta_roundtrip_counterexample :
    (Vector.set_theta ⟨-1, 1⟩ (Vector.theta ⟨-1, 1⟩)).x = 1 ∧
    ((1:ℝ)) ≠ (Vector.mk (-1) 1).x := by
  constructor
  · show Vector.r ⟨-1, 1⟩ *
      Real.cos (deg2rad (Vector.theta ⟨-1, 1⟩)) = 1
    rw [Vector.theta, deg2rad_rad2deg]
    rw [show (Vector.mk (-1) 1).y / (Vector.mk (-1) 1).x = -1 by norm_num,
      Real.arctan_neg, Real.arctan_one, Real.cos_neg, Real.cos_pi_div_four]
    show Real.sqrt ((-1:ℝ) ^ 2 + (1:ℝ) ^ 2) * (Real.sqrt 2 / 2) = 1
    rw [show ((-1:ℝ) ^ 2 + (1:ℝ) ^ 2) = 2 by norm_num]
    rw [div_eq_mul_inv, ← mul_assoc, Real.mul_self_sqrt (by norm_num : (0:ℝ) ≤ 2)]
    norm_num
  · norm_num

/-- C7 amended: for a vector with both components nonzero, the no-op
magnitude set `v.r = v.r` leaves `x, y` unchanged exactly; the no-op angle
set `v.theta = v.theta` leaves `x, y` unchanged when `x > 0`, and for
`x < 0` it negates both components (reflection through the origin), since
`theta = arctan(y/x)` loses the quadrant. -/
theorem vector_roundtrip_amended (v : Vector) (hx : v.x ≠ 0) (hy : v.y ≠ 0) :
    Vector.set_r v (Vector.r v) = v ∧
    (0 < v.x → Vector.set_theta v (Vector.theta v) = v) ∧
    (v.x < 0 → Vector.set_theta v (Vector.theta v) = Vector.mk (-v.x) (-v.y)) := by
  rcases v with ⟨x, y⟩
  simp only at hx hy
  have hxy : (0:ℝ) < x ^ 2 + y ^ 2 := by
    rcases hx.lt_or_lt with h | h
    · nlinarith [sq_nonneg y]
    · nlinarith [sq_nonneg y]
  have hR : Real.sqrt (x ^ 2 + y ^ 2) ≠ 0 := ne_of_gt (Real.sqrt_pos.mpr hxy)
  have h1 : (1:ℝ) + (y / x) ^ 2 = (x ^ 2 + y ^ 2) / x ^ 2 := by
    field_simp
  refine ⟨?_, fun hxpos => ?_, fun hxneg => ?_⟩
  · -- magnitude round-trip, for any nonzero vector
    have hr : Vector.r ⟨x, y⟩ ≠ 0 := hR
    show Vector.mk (x / (Vector.r ⟨x, y⟩ / Vector.r ⟨x, y⟩))
        (y / (Vector.r ⟨x, y⟩ / Vector.r ⟨x, y⟩)) = Vector.mk x y
    rw [div_self hr, div_one, div_one]
  · -- angle round-trip, right half-plane
    show Vector.mk (Vector.r ⟨x, y⟩ * Real.cos (deg2rad (Vector.theta ⟨x, y⟩)))
        (Vector.r ⟨x, y⟩ * Real.sin (deg2rad (Vector.theta ⟨x, y⟩))) = Vector.mk x y
    rw [Vector.theta, deg2rad_rad2deg]
    show Vector.mk (Real.sqrt (x ^ 2 + y ^ 2) * Real.cos (Real.arctan (y / x)))
        (Real.sqrt (x ^ 2 + y ^ 2) * Real.sin (Real.arctan (y / x))) = Vector.mk x y
    rw [Real.cos_arctan, Real.sin_arctan]
    have hsq : Real.sqrt ((x ^ 2 + y ^ 2) / x ^ 2) = Real.sqrt (x ^ 2 + y ^ 2) / x := by
      rw [Real.sqrt_div hxy.le, Real.sqrt_sq hxpos.le]
    rw [h1, hsq, Vector.mk.injEq]
    constructor
    · field_simp
    · field_simp
  · -- angle round-trip, left half-plane: reflection through the origin
    show Vector.mk (Vector.r ⟨x, y⟩ * Real.cos (deg2rad (Vector.theta ⟨x, y⟩)))
        (Vector.r ⟨x, y⟩ * Real.sin (deg2rad (Vector.theta ⟨x, y⟩))) = Vector.mk (-x) (-y)
    rw [Vector.theta, deg2rad_rad2deg]
    show Vector.mk (Real.sqrt (x ^ 2 + y ^ 2) * Real.cos (Real.arctan (y / x)))
        (Real.sqrt (x ^ 2 + y ^ 2) * Real.sin (Real.arctan (y / x))) = Vector.mk (-x) (-y)
    rw [Real.cos_arctan, Real.sin_arctan]
    have hsq : Real.sqrt ((x ^ 2 + y ^ 2) / x ^ 2)
        = Real.sqrt (x ^ 2 + y ^ 2) / (-x) := by
      rw [Real.sqrt_div hxy.le, Real.sqrt_sq_eq_abs, abs_of_neg hxneg]
    rw [h1, hsq, Vector.mk.injEq]
    constructor
    · field_simp
      ring
    · field_simp
      ring

/-- Witness for `vector_roundtrip_amended` at the vector `(-1, 1)`,
exercising both the magnitude round-trip with `x < 0` and the
reflection conjunct. -/
theorem vector_roundtrip_amended_witness :
    ((Vector.mk (-1) 1).x ≠ 0 ∧ (Vector.mk (-1) 1).y ≠ 0) ∧
    (Vector.set_r ⟨-1, 1⟩ (Vector.r ⟨-1, 1⟩) = ⟨-1, 1⟩ ∧
     (0 < (Vector.mk (-1) 1).x →
       Vector.set_theta ⟨-1, 1⟩ (Vector.theta ⟨-1, 1⟩) = ⟨-1, 1⟩) ∧
     ((Vector.mk (-1) 1).x < 0 →
       Vector.set_theta ⟨-1, 1⟩ (Vector.theta ⟨-1, 1⟩)
         = Vector.mk (-(Vector.mk (-1) 1).x) (-(Vector.mk (-1) 1).y))) :=
  ⟨⟨by norm_num, by norm_num⟩,
    vector_roundtrip_amended ⟨-1, 1⟩ (by norm_num) (by norm_num)⟩

/-! ## lib/Body.py: GravBody

Seven scalar attributes plus the derived magnitudes `r` and `v`, which the
constructor (and the `state` setter) recompute from the assigned state. -/

structure GravBody where
  x : ℝ
  y : ℝ
  z : ℝ
  vx : ℝ
  vy : ℝ
  vz : ℝ
  m : ℝ
  r : ℝ
  v : ℝ

/-- `GravBody.__init__(x, y, z, vx, vy, vz, m)`: stores the components and
the derived magnitudes `r = sqrt(x²+y²+z²)`, `v = sqrt(vx²+vy²+vz²)`. -/
noncomputable def GravBody.init (x y z vx vy vz m : ℝ) : GravBody :=
  { x := x, y := y, z := z, vx := vx, vy := vy, vz := vz, m := m,
    r := Real.sqrt (x ^ 2 + y ^ 2 + z ^ 2),
    v := Real.sqrt (vx ^ 2 + vy ^ 2 + vz ^ 2) }

/-- The `pos` property: returns the stored magnitude `r`. -/
def GravBody.pos (b : GravBody) : ℝ := b.r

/-- The `vel` property: returns the stored magnitude `v`. -/
def GravBody.vel (b : GravBody) : ℝ := b.v

/-- The `state` property getter: `[x, y, z, vx, vy, vz, m]`. -/
def GravBody.state (b : GravBody) : List ℝ :=
  [b.x, b.y, b.z, b.vx, b.vy, b.vz, b.m]

/-! ## lib/Model.py: OrbitModel

The name→body dictionary `self.dic` is modelled as a partial map
`String → Option GravBody`.  The read-only methods are embedded
state-passing style, returning the (unchanged) model alongside the result;
a `KeyError` from `self.dic[name]` becomes `Except.error`. -/

structure OrbitModel where
  dic : String → Option GravBody
  bodies : List GravBody
  time : ℝ

/-- `OrbitModel.get_body(name)`: `return self.dic[name]`, a raising lookup
with no mutation of the model. -/
def OrbitModel.get_body (model : OrbitModel) (name : String) :
    Except String GravBody × OrbitModel :=
  (match model.dic name with
   | some b => Except.ok b
   | none => Except.error ("KeyError: " ++ name), model)

/-- `OrbitModel.total_energy(name)`: `pMass = p.state[6]; rad = p.pos;
v = p.vel; GM = 4π²; pot = GM*pMass/rad; ke = 0.5*pMass*v**2;
return pot+ke`, with no mutation of the model. -/
noncomputable def OrbitModel.total_energy (model : OrbitModel) (name : String) :
    Except String ℝ × OrbitModel :=
  match (model.get_body name).1 with
  | Except.error e => (Except.error e, model)
  | Except.ok p =>
    let pMass := p.state.getD 6 0
    let rad := p.pos
    let v := p.vel
    let GM := 4 * Real.pi ^ 2
    let pot := GM * pMass / rad
    let ke := (1/2) * pMass * v ^ 2
    (Except.ok (pot + ke), model)

/-- The body created for orbital elements `(a, e, mass)` in the loop of
`OrbitModel.__init__`: perihelion distance `a*(1-e)` on the x-axis and
`yVel = sqrt(gravParam*1*((1+e)/(1-e))/a)` on the y-axis. -/
noncomputable def OrbitModel.initBody (a e mass : ℝ) : GravBody :=
  let G := 4 * Real.pi ^ 2
  let gravParam := G * 1
  let parahelionDist := a * (1 - e)
  let weirdTerm := (1 + e) / (1 - e)
  let yVel := Real.sqrt (gravParam * 1 * weirdTerm / a)
  GravBody.init parahelionDist 0 0 0 yVel 0 mass

/-- `OrbitModel.__init__(aList, eList, masses, names)`: builds the body
list in order and the name→body dictionary (later duplicate names
overwrite earlier ones, as in a Python dict); time starts at 0.
Out-of-range parallel-list access is modelled with `getD`, which the
claims never exercise. -/
noncomputable def OrbitModel.init (aList eList masses : List ℝ)
    (names : List String) : OrbitModel :=
  let bodies := (List.range aList.length).map (fun i =>
    OrbitModel.initBody (aList.getD i 0) (eList.getD i 0) (masses.getD i 0))
  let dic := (List.range aList.length).foldl (fun d i => fun n =>
    if n = names.getD i "" then
      some (OrbitModel.initBody (aList.getD i 0) (eList.getD i 0) (masses.getD i 0))
    else d n) (fun _ => none)
  { dic := dic, bodies := bodies, time := 0 }

/-- C4: each body is created at perihelion `(a(1-e), 0, 0)` with velocity
`(0, sqrt(GM(1+e)/((1-e)a)), 0)`, `GM = 4π²`, and mass `m`. -/
theorem orbitModel_init_perihelion (aList eList masses : List ℝ)
    (names : List String) (i : ℕ) (hi : i < aList.length)
    (he : eList.getD i 0 ≠ 1) (ha : 0 < aList.getD i 0) :
    ∃ b, (OrbitModel.init aList eList masses names).bodies[i]? = some b ∧
      b.x = aList.getD i 0 * (1 - eList.getD i 0) ∧ b.y = 0 ∧ b.z = 0 ∧
      b.vx = 0 ∧
      b.vy = Real.sqrt (4 * Real.pi ^ 2 * (1 + eList.getD i 0) /
        ((1 - eList.getD i 0) * aList.getD i 0)) ∧
      b.vz = 0 ∧ b.m = masses.getD i 0 := by
  refine ⟨OrbitModel.initBody (aList.getD i 0) (eList.getD i 0) (masses.getD i 0),
    ?_, rfl, rfl, rfl, rfl, ?_, rfl, rfl⟩
  · show ((List.range aList.length).map (fun i =>
      OrbitModel.initBody (aList.getD i 0) (eList.getD i 0) (masses.getD i 0)))[i]?
        = _
    rw [List.getElem?_map, List.getElem?_range hi]
    rfl
  · rw [show (OrbitModel.initBody (aList.getD i 0) (eList.getD i 0)
        (masses.getD i 0)).vy
      = Real.sqrt (4 * Real.pi ^ 2 * 1 * 1 *
          ((1 + eList.getD i 0) / (1 - eList.getD i 0)) / aList.getD i 0) from rfl]
    simp only [mul_one]
    rw [← mul_div_assoc, div_div]

/-- Witness for `orbitModel_init_perihelion` at a one-element system
`a = 2`, `e = 1/2`, `mass = 3`. -/
theorem orbitModel_init_perihelion_witness :
    (0 < ([2] : List ℝ).length ∧ ([(1:ℝ)/2] : List ℝ).getD 0 0 ≠ 1 ∧
      0 < ([2] : List ℝ).getD 0 0) ∧
    ∃ b, (OrbitModel.init [2] [1/2] [3] ["Mercury"]).bodies[0]? = some b ∧
      b.x = ([2] : List ℝ).getD 0 0 * (1 - ([(1:ℝ)/2] : List ℝ).getD 0 0) ∧
      b.y = 0 ∧ b.z = 0 ∧ b.vx = 0 ∧
      b.vy = Real.sqrt (4 * Real.pi ^ 2 * (1 + ([(1:ℝ)/2] : List ℝ).getD 0 0) /
        ((1 - ([(1:ℝ)/2] : List ℝ).getD 0 0) * ([2] : List ℝ).getD 0 0)) ∧
      b.vz = 0 ∧ b.m = ([(3:ℝ)] : List ℝ).getD 0 0 :=
  ⟨⟨by norm_num, by norm_num, by norm_num⟩,
    orbitModel_init_perihelion [2] [1/2] [3] ["Mercury"] 0
      (by norm_num) (by norm_num) (by norm_num)⟩

/-- C5: for a name bound in the dictionary to a body whose stored
magnitudes are consistent with its state (the documented invariant, which
the constructor and the state setter maintain), `total_energy` returns
`GM·mass/r + ½·mass·v²` with `GM = 4π²`, `r` the position magnitude and
`v` the speed — and returns the model unchanged. -/
theorem totalEnergy_spec (model : OrbitModel) (name : String) (b : GravBody)
    (hb : model.dic name = some b)
    (hr : b.r = Real.sqrt (b.x ^ 2 + b.y ^ 2 + b.z ^ 2))
    (hv : b.v = Real.sqrt (b.vx ^ 2 + b.vy ^ 2 + b.vz ^ 2)) :
    model.total_energy name =
      (Except.ok (4 * Real.pi ^ 2 * b.m / Real.sqrt (b.x ^ 2 + b.y ^ 2 + b.z ^ 2)
        + (1/2) * b.m * Real.sqrt (b.vx ^ 2 + b.vy ^ 2 + b.vz ^ 2) ^ 2),
       model) := by
  rw [OrbitModel.total_energy, OrbitModel.get_body]
  rw [hb]
  show (Except.ok ((4 * Real.pi ^ 2) * (b.state.getD 6 0) / b.pos
      + (1/2) * (b.state.getD 6 0) * b.vel ^ 2), model) = _
  rw [show b.state.getD 6 0 = b.m from rfl, GravBody.pos, GravBody.vel, hr, hv]

/-- A concrete body for the lookup witnesses: position `(1,0,0)`, velocity
`(0,2,0)`, mass `3`. -/
noncomputable def mercuryBody : GravBody := GravBody.init 1 0 0 0 2 0 3

/-- A concrete one-body model for the lookup witnesses. -/
noncomputable def testModel : OrbitModel :=
  { dic := fun n => if n = "Mercury" then some mercuryBody else none,
    bodies := [mercuryBody], time := 0 }

/-- Witness for `totalEnergy_spec` on `testModel`. -/
theorem totalEnergy_spec_witness :
    (testModel.dic "Mercury" = some mercuryBody) ∧
    testModel.total_energy "Mercury" =
      (Except.ok (4 * Real.pi ^ 2 * mercuryBody.m /
          Real.sqrt (mercuryBody.x ^ 2 + mercuryBody.y ^ 2 + mercuryBody.z ^ 2)
        + (1/2) * mercuryBody.m *
          Real.sqrt (mercuryBody.vx ^ 2 + mercuryBody.vy ^ 2 + mercuryBody.vz ^ 2) ^ 2),
       testModel) :=
  ⟨rfl, totalEnergy_spec testModel "Mercury" mercuryBody rfl rfl rfl⟩

/-- C8: `get_body` returns the bound body when the name is present, fails
with the not-found `KeyError` when it is absent (and `total_energy`
propagates that failure), and in every case the model — bodies, clock and
dictionary — is returned unchanged. -/
theorem get_body_spec (model : OrbitModel) (name : String) :
    (model.get_body name).2 = model ∧
    (∀ b, model.dic name = some b → (model.get_body name).1 = Except.ok b) ∧
    (model.dic name = none →
      (model.get_body name).1 = Except.error ("KeyError: " ++ name) ∧
      (model.total_energy name).1 = Except.error ("KeyError: " ++ name) ∧
      (model.total_energy name).2 = model) := by
  refine ⟨rfl, fun b hb => ?_, fun hn => ?_⟩
  · rw [OrbitModel.get_body, hb]
  · have h1 : (model.get_body name).1 = Except.error ("KeyError: " ++ name) := by
      rw [OrbitModel.get_body, hn]
    refine ⟨h1, ?_, ?_⟩
    · rw [OrbitModel.total_energy, h1]
    · rw [OrbitModel.total_energy, h1]

/-- Witness for `get_body_spec`: present name `"Mercury"`, absent name
`"Pluto"`, on `testModel`. -/
theorem get_body_spec_witness :
    (testModel.get_body "Mercury").2 = testModel ∧
    (testModel.get_body "Mercury").1 = Except.ok mercuryBody ∧
    ((testModel.get_body "Pluto").1 = Except.error ("KeyError: " ++ "Pluto") ∧
     (testModel.total_energy "Pluto").1 = Except.error ("KeyError: " ++ "Pluto") ∧
     (testModel.total_energy "Pluto").2 = testModel) :=
  ⟨(get_body_spec testModel "Mercury").1,
   (get_body_spec testModel "Mercury").2.1 mercuryBody rfl,
   (get_body_spec testModel "Pluto").2.2 rfl⟩

/-! ## library/Body.py: GravBodies

The vectorized collection: an n×6 state matrix (a list of rows), the
parallel mass array, and the name→row-index dictionary `self._dict`,
modelled as an association list with Python-dict lookup semantics.
(The `_bodies` cache of original Python objects, which mirrors the rows,
is not part of the indexing invariant and is omitted.) -/

structure GravBodies where
  state : List (List ℚ)
  mass : List ℚ
  dict : List (String × ℕ)

/-- Python dict lookup `self._dict[name]` on the association list. -/
def dictLookup (n : String) : List (String × ℕ) → Option ℕ
  | [] => none
  | (a, j) :: t => if n = a then some j else dictLookup n t

/-- The dictionary scan of `GravBodies.pop(index)`: delete entries equal to
the removed index, decrement entries greater than it. -/
def popDict (index : ℕ) : List (String × ℕ) → List (String × ℕ) :=
  List.filterMap (fun p =>
    if p.2 = index then none
    else if index < p.2 then some (p.1, p.2 - 1)
    else some p)

/-- `GravBodies.pop(index)` (numeric index): removes row `index` from the
state matrix and the mass array, and rewrites the dictionary. -/
def GravBodies.pop (gb : GravBodies) (index : ℕ) : GravBodies :=
  { state := gb.state.eraseIdx index
    mass := gb.mass.eraseIdx index
    dict := popDict index gb.dict }

theorem eraseIdx_getElem?_lt {α : Type} (l : List α) (k j : ℕ) (h : j < k) :
    (l.eraseIdx k)[j]? = l[j]? := by
  induction l generalizing k j with
  | nil => rfl
  | cons a t ih =>
    cases k with
    | zero => omega
    | succ k =>
      rw [List.eraseIdx_cons_succ]
      cases j with
      | zero => simp
      | succ j =>
        rw [List.getElem?_cons_succ, List.getElem?_cons_succ]
        exact ih k j (by omega)

theorem eraseIdx_getElem?_ge {α : Type} (l : List α) (k j : ℕ) (h : k ≤ j) :
    (l.eraseIdx k)[j]? = l[j + 1]? := by
  induction l generalizing k j with
  | nil => rfl
  | cons a t ih =>
    cases k with
    | zero =>
      rw [List.eraseIdx_cons_zero, List.getElem?_cons_succ]
    | succ k =>
      rw [List.eraseIdx_cons_succ]
      cases j with
      | zero => omega
      | succ j =>
        rw [List.getElem?_cons_succ, List.getElem?_cons_succ]
        exact ih k j (by omega)

theorem dictLookup_popDict_of_not_mem (k : ℕ) (n : String)
    (l : List (String × ℕ)) (hn : ∀ p ∈ l, p.1 ≠ n) :
    dictLookup n (popDict k l) = none := by
  induction l with
  | nil => rfl
  | cons p t ih =>
    obtain ⟨a, j⟩ := p
    have ha : a ≠ n := hn (a, j) (List.mem_cons_self _ _)
    have ht : ∀ q ∈ t, q.1 ≠ n := fun q hq => hn q (List.mem_cons_of_mem _ hq)
    rw [popDict, List.filterMap_cons]
    by_cases hj : j = k
    · rw [if_pos hj]
      exact ih ht
    · rw [if_neg hj]
      by_cases hgt : k < j
      · rw [if_pos hgt]
        rw [dictLookup, if_neg (fun h => ha h.symm)]
        exact ih ht
      · rw [if_neg hgt]
        rw [dictLookup, if_neg (fun h => ha h.symm)]
        exact ih ht

theorem dictLookup_popDict (k : ℕ) (l : List (String × ℕ))
    (hnd : (l.map Prod.fst).Nodup) (n : String) (i : ℕ)
    (h : dictLookup n l = some i) :
    dictLookup n (popDict k l) =
      if i = k then none else if k < i then some (i - 1) else some i := by
  induction l with
  | nil => simp [dictLookup] at h
  | cons p t ih =>
    obtain ⟨a, j⟩ := p
    rw [List.map_cons, List.nodup_cons] at hnd
    rw [dictLookup] at h
    rw [popDict, List.filterMap_cons]
    by_cases hna : n = a
    · rw [if_pos hna] at h
      have hij : j = i := Option.some.inj h
      subst hij
      have hnotin : ∀ q ∈ t, q.1 ≠ n := by
        intro q hq hqn
        apply hnd.1
        have hmem : q.1 ∈ List.map Prod.fst t := List.mem_map_of_mem Prod.fst hq
        rw [hqn, hna] at hmem
        exact hmem
      by_cases hj : j = k
      · rw [if_pos hj, hj, if_pos rfl]
        exact dictLookup_popDict_of_not_mem k n t hnotin
      · rw [if_neg hj, if_neg hj]
        by_cases hgt : k < j
        · rw [if_pos hgt, if_pos hgt, dictLookup, if_pos hna]
        · rw [if_neg hgt, if_neg hgt, dictLookup, if_pos hna]
    · rw [if_neg hna] at h
      have hrec := ih hnd.2 h
      by_cases hj : j = k
      · rw [if_pos hj]
        exact hrec
      · rw [if_neg hj]
        by_cases hgt : k < j
        · rw [if_pos hgt, dictLookup, if_neg hna]
          exact hrec
        · rw [if_neg hgt, dictLookup, if_neg hna]
          exact hrec

theorem dictLookup_popDict_valid (k N : ℕ) (l : List (String × ℕ))
    (hk : k < N) (hvalid : ∀ p ∈ l, p.2 < N) (n : String) (i' : ℕ)
    (h : dictLookup n (popDict k l) = some i') : i' < N - 1 := by
  induction l with
  | nil => simp [popDict, dictLookup] at h
  | cons p t ih =>
    obtain ⟨a, j⟩ := p
    have hj : j < N := hvalid (a, j) (List.mem_cons_self _ _)
    have ht : ∀ q ∈ t, q.2 < N := fun q hq => hvalid q (List.mem_cons_of_mem _ hq)
    rw [popDict, List.filterMap_cons] at h
    by_cases hjk : j = k
    · rw [if_pos hjk] at h
      exact ih ht h
    · rw [if_neg hjk] at h
      by_cases hgt : k < j
      · rw [if_pos hgt, dictLookup] at h
        by_cases hna : n = a
        · rw [if_pos hna] at h
          have : j - 1 = i' := Option.some.inj h
          omega
        · rw [if_neg hna] at h
          exact ih ht h
      · rw [if_neg hgt, dictLookup] at h
        by_cases hna : n = a
        · rw [if_pos hna] at h
          have : j = i' := Option.some.inj h
          omega
        · rw [if_neg hna] at h
          exact ih ht h

/-- C9: popping a valid index `k` from a collection with a consistent
(nodup-keyed, in-range) name→index mapping removes row `k` (earlier rows
keep their position, later rows shift down one), keeps names mapped below
`k` unchanged, decrements names mapped above `k`, makes the name mapped to
`k` unresolvable, and every remaining mapping value is a valid row index
of the shrunken matrix. -/
theorem gravBodies_pop_spec (gb : GravBodies) (k : ℕ)
    (hk : k < gb.state.length)
    (hnd : (gb.dict.map Prod.fst).Nodup)
    (hvalid : ∀ p ∈ gb.dict, p.2 < gb.state.length) :
    (gb.pop k).state.length = gb.state.length - 1 ∧
    (∀ j, j < k → (gb.pop k).state[j]? = gb.state[j]?) ∧
    (∀ j, k ≤ j → (gb.pop k).state[j]? = gb.state[j + 1]?) ∧
    (∀ n i, dictLookup n gb.dict = some i →
      (i < k → dictLookup n (gb.pop k).dict = some i) ∧
      (i = k → dictLookup n (gb.pop k).dict = none) ∧
      (k < i → dictLookup n (gb.pop k).dict = some (i - 1))) ∧
    (∀ n i', dictLookup n (gb.pop k).dict = some i' →
      i' < (gb.pop k).state.length) := by
  have hlen : (gb.pop k).state.length = gb.state.length - 1 := by
    show (gb.state.eraseIdx k).length = gb.state.length - 1
    have := List.length_eraseIdx_add_one hk
    omega
  refine ⟨hlen, fun j hj => eraseIdx_getElem?_lt _ k j hj,
    fun j hj => eraseIdx_getElem?_ge _ k j hj, fun n i hi => ?_, fun n i' hi' => ?_⟩
  · have hmain := dictLookup_popDict k gb.dict hnd n i hi
    refine ⟨fun hlt => ?_, fun heq => ?_, fun hgt => ?_⟩
    · rwa [if_neg (by omega), if_neg (by omega)] at hmain
    · rwa [if_pos heq] at hmain
    · rwa [if_neg (by omega), if_pos hgt] at hmain
  · rw [hlen]
    exact dictLookup_popDict_valid k gb.state.length gb.dict hk hvalid n i' hi'

/-- Witness for `gravBodies_pop_spec`: a three-row collection named
`a, b, c`, popping the middle row. -/
theorem gravBodies_pop_spec_witness :
    ((1 < (GravBodies.mk [[1], [2], [3]] [1, 2, 3]
        [("a", 0), ("b", 1), ("c", 2)]).state.length) ∧
     ((GravBodies.mk [[1], [2], [3]] [1, 2, 3]
        [("a", 0), ("b", 1), ("c", 2)]).dict.map Prod.fst).Nodup ∧
     (∀ p ∈ (GravBodies.mk [[1], [2], [3]] [1, 2, 3]
        [("a", 0), ("b", 1), ("c", 2)]).dict, p.2 <
          (GravBodies.mk [[1], [2], [3]] [1, 2, 3]
            [("a", 0), ("b", 1), ("c", 2)]).state.length)) ∧
    (((GravBodies.mk [[1], [2], [3]] [1, 2, 3]
        [("a", 0), ("b", 1), ("c", 2)]).pop 1).state.length =
      (GravBodies.mk [[1], [2], [3]] [1, 2, 3]
        [("a", 0), ("b", 1), ("c", 2)]).state.length - 1 ∧
     (∀ j, j < 1 → ((GravBodies.mk [[1], [2], [3]] [1, 2, 3]
        [("a", 0), ("b", 1), ("c", 2)]).pop 1).state[j]? =
          (GravBodies.mk [[1], [2], [3]] [1, 2, 3]
            [("a", 0), ("b", 1), ("c", 2)]).state[j]?) ∧
     (∀ j, 1 ≤ j → ((GravBodies.mk [[1], [2], [3]] [1, 2, 3]
        [("a", 0), ("b", 1), ("c", 2)]).pop 1).state[j]? =
          (GravBodies.mk [[1], [2], [3]] [1, 2, 3]
            [("a", 0), ("b", 1), ("c", 2)]).state[j + 1]?) ∧
     (∀ n i, dictLookup n (GravBodies.mk [[1], [2], [3]] [1, 2, 3]
        [("a", 0), ("b", 1), ("c", 2)]).dict = some i →
       (i < 1 → dictLookup n ((GravBodies.mk [[1], [2], [3]] [1, 2, 3]
          [("a", 0), ("b", 1), ("c", 2)]).pop 1).dict = some i) ∧
       (i = 1 → dictLookup n ((GravBodies.mk [[1], [2], [3]] [1, 2, 3]
          [("a", 0), ("b", 1), ("c", 2)]).pop 1).dict = none) ∧
       (1 < i → dictLookup n ((GravBodies.mk [[1], [2], [3]] [1, 2, 3]
          [("a", 0), ("b", 1), ("c", 2)]).pop 1).dict = some (i - 1))) ∧
     (∀ n i', dictLookup n ((GravBodies.mk [[1], [2], [3]] [1, 2, 3]
        [("a", 0), ("b", 1), ("c", 2)]).pop 1).dict = some i' →
       i' < ((GravBodies.mk [[1], [2], [3]] [1, 2, 3]
          [("a", 0), ("b", 1), ("c", 2)]).pop 1).state.length)) :=
  ⟨⟨by decide, by decide, by decide⟩,
    gravBodies_pop_spec (GravBodies.mk [[1], [2], [3]] [1, 2, 3]
      [("a", 0), ("b", 1), ("c", 2)]) 1 (by decide) (by decide) (by decide)⟩

end Orbital
